import Mathlib

/-!
Shallow embedding of two slices of the repository:
  * `src/crates/onnx-ir/src/node/conv3d.rs` — the Conv3d configuration
    extractor over IR nodes (attribute bag + typed inputs);
  * `src/burn-tensor/src/tensor/tensor.rs` — the rank-parameterized tensor
    wrapper (`unsqueeze`, `one_hot`, reductions).
Rust panics are embedded as `Except.error` carrying the panic message.
`usize` values are `Nat`; `i64` values are `Int`; the Rust `as usize` cast
wraps modulo 2^64, which the embedding keeps explicit.
-/

namespace Burn

/-- Rust `v as usize` cast from `i64`: wraps modulo 2^64 and is never
negative afterwards. -/
def usizeOfI64 (v : Int) : Nat := (v % (2 : Int) ^ 64).toNat

/-- Modelled from the spec: the IR attribute values are "taggable as scalar
integer, scalar float, or integer-list" (the `AttributeValue` type of
`crate::ir` is not part of the sources shown). -/
inductive AttributeValue where
  | int64 (v : Int)
  | int64s (vs : List Int)
  | float32Tag
  deriving DecidableEq, Repr

/-- Modelled from the spec: conversion of an attribute value to an integer
list, fatal on any other tag (the IR conversion helpers are not part of the
sources shown; the extractor contract is "fatal on malformed ...
attributes"). -/
def AttributeValue.into_i64s : AttributeValue → Except String (List Int)
  | .int64s vs => .ok vs
  | _ => .error "attribute value is not a list of i64"

/-- Modelled from the spec: conversion of an attribute value to a scalar
integer, fatal on any other tag. -/
def AttributeValue.into_i64 : AttributeValue → Except String Int
  | .int64 v => .ok v
  | _ => .error "attribute value is not an i64"

/-- The materialized constant value carried by an IR argument; only its
shape (a list of `usize` dimensions) is consulted by the extractor. -/
structure TensorData where
  shape : List Nat
  deriving DecidableEq, Repr

/-- One typed input/output of an IR node: an optional materialized constant
value (`curr.inputs[i].value` in the source). -/
structure Argument where
  value : Option TensorData
  deriving DecidableEq, Repr

/-- An IR node: ordered inputs and an attribute map from names to typed
values.  The map is embedded as an association list; real nodes have at
most one entry per key. -/
structure Node where
  inputs : List Argument
  attrs : List (String × AttributeValue)
  deriving DecidableEq, Repr

/-- Modelled from the spec: the padding policy is "a tagged variant — no
padding (valid), same as input size (same), or explicit with N symmetric
pad amounts" (`crate::node::padding::PaddingConfig3d` is not part of the
sources shown). -/
inductive PaddingConfig3d where
  | Valid
  | Same
  | Explicit (d0 d1 d2 : Int)
  deriving DecidableEq, Repr

/-- Modelled from the spec: the symmetric-pad derivation
(`crate::node::padding::padding_config_3d` is not part of the sources
shown).  "Given a flat list of 2N pad amounts (N axes, ... grouped by
phase), verify pad-before equals pad-after for every axis; if all zero,
policy is no-padding; otherwise explicit with the per-axis amount";
asymmetric input is a fatal error. -/
def padding_config_3d (pads : List Int) : Except String PaddingConfig3d :=
  match pads with
  | [b0, b1, b2, e0, e1, e2] =>
    if b0 ≠ e0 ∨ b1 ≠ e1 ∨ b2 ≠ e2 then
      .error "Asymmetric padding is not supported"
    else if b0 = 0 ∧ b1 = 0 ∧ b2 = 0 then
      .ok .Valid
    else
      .ok (.Explicit b0 b1 b2)
  | _ => .error "pads must have exactly six elements"

/-- Rust `Vec` index, embedded fallibly: out of bounds is a panic whose
message carries the length and the index. -/
def vecIdx {α : Type} (xs : List α) (i : Nat) : Except String α :=
  match xs[i]? with
  | some v => .ok v
  | none =>
    .error ("index out of bounds: the len is " ++ toString xs.length
      ++ " but the index is " ++ toString i)

/-- The Conv3d configuration assembled by `conv3d_config`
(`Conv3dConfig` in the source; channel pair and per-axis triples embedded
as lists). -/
structure Conv3dConfig where
  channels : List Nat
  kernel_size : List Nat
  stride : List Nat
  dilation : List Nat
  groups : Nat
  bias : Bool
  padding : PaddingConfig3d
  deriving DecidableEq, Repr

/-- The mutable locals of the attribute loop in `conv3d_config`, with their
initial values as defaults. -/
structure AttrState where
  kernel_shape : List Int
  strides : List Int
  pads : List Int
  dilations : List Int
  group : Nat
  deriving DecidableEq, Repr

/-- The defaults `conv3d_config` starts from: empty kernel_shape,
strides [1,1,1], pads [0,0,0,0,0,0], dilations [1,1,1], group 1. -/
def defaultAttrState : AttrState :=
  { kernel_shape := [], strides := [1, 1, 1], pads := [0, 0, 0, 0, 0, 0],
    dilations := [1, 1, 1], group := 1 }

/-- One iteration of the attribute loop of `conv3d_config`: a known key
overwrites the corresponding local, any other key is the panic
`Unexpected attribute for Conv3d: {key}`. -/
def processAttr (s : AttrState) (kv : String × AttributeValue) :
    Except String AttrState :=
  if kv.1 = "kernel_shape" then
    (kv.2.into_i64s).map fun vs => { s with kernel_shape := vs }
  else if kv.1 = "strides" then
    (kv.2.into_i64s).map fun vs => { s with strides := vs }
  else if kv.1 = "pads" then
    (kv.2.into_i64s).map fun vs => { s with pads := vs }
  else if kv.1 = "dilations" then
    (kv.2.into_i64s).map fun vs => { s with dilations := vs }
  else if kv.1 = "group" then
    (kv.2.into_i64).map fun v => { s with group := usizeOfI64 v }
  else
    .error ("Unexpected attribute for Conv3d: " ++ kv.1)

/-- The whole attribute loop of `conv3d_config`, folded over the node's
attribute entries starting from the defaults. -/
def resolveAttrs (curr : Node) : Except String AttrState :=
  curr.attrs.foldlM processAttr defaultAttrState

/-- Reading the weight input's materialized shape:
`curr.inputs[1].value.as_ref().expect("Conv3d: weight tensor must be present").shape`. -/
def getWeightShape (curr : Node) : Except String (List Nat) := do
  let arg ← vecIdx curr.inputs 1
  match arg.value with
  | some v => .ok v.shape
  | none => .error "Conv3d: weight tensor must be present"

/-- Reads positions 0, 1, 2 of one of the per-axis attribute lists, in the
order the `Conv3dConfig::new` argument list evaluates them. -/
def idx3 (xs : List Int) : Except String (Int × Int × Int) := do
  let a ← vecIdx xs 0
  let b ← vecIdx xs 1
  let c ← vecIdx xs 2
  .ok (a, b, c)

/-- The tail of `conv3d_config` after the attribute loop: channel
derivation (`weight_shape[1] * group`, wrapping as `usize` arithmetic
does, and `weight_shape[0]`), padding derivation, and assembly of the
config with the `as usize` casts of the per-axis lists. -/
def buildConfig (weight_shape : List Nat) (bias : Bool) (st : AttrState) :
    Except String Conv3dConfig := do
  let ws1 ← vecIdx weight_shape 1
  let channels_in := ws1 * st.group % 2 ^ 64
  let channels_out ← vecIdx weight_shape 0
  let padding ← padding_config_3d st.pads
  let k ← idx3 st.kernel_shape
  let s ← idx3 st.strides
  let d ← idx3 st.dilations
  .ok { channels := [channels_in, channels_out],
        kernel_size := [usizeOfI64 k.1, usizeOfI64 k.2.1, usizeOfI64 k.2.2],
        stride := [usizeOfI64 s.1, usizeOfI64 s.2.1, usizeOfI64 s.2.2],
        dilation := [usizeOfI64 d.1, usizeOfI64 d.2.1, usizeOfI64 d.2.2],
        groups := st.group, bias := bias, padding := padding }

/-- `conv3d_config` from `src/crates/onnx-ir/src/node/conv3d.rs`: weight
shape first (its panics fire before the attribute loop), bias by input
count, then the attribute loop, then channel/padding derivation and
assembly. -/
def conv3d_config (curr : Node) : Except String Conv3dConfig := do
  let weight_shape ← getWeightShape curr
  let bias := curr.inputs.length == 3
  let st ← resolveAttrs curr
  buildConfig weight_shape bias st

/-- The fixed attribute-name set `conv3d_config` accepts. -/
def knownConv3dAttrs : List String :=
  ["kernel_shape", "strides", "pads", "dilations", "group"]

/-- Whether an attribute value carries the integer-list tag. -/
def AttributeValue.isInt64s : AttributeValue → Bool
  | .int64s _ => true
  | _ => false

/-- Whether an attribute value carries the scalar-integer tag. -/
def AttributeValue.isInt64 : AttributeValue → Bool
  | .int64 _ => true
  | _ => false

/-- A known attribute carries the value tag its branch of the loop expects:
an integer list for the four per-axis keys, a scalar integer for `group`.
Unknown keys are unconstrained. -/
def wellTypedAttr (kv : String × AttributeValue) : Prop :=
  (kv.1 = "kernel_shape" ∨ kv.1 = "strides" ∨ kv.1 = "pads"
      ∨ kv.1 = "dilations" → kv.2.isInt64s = true)
  ∧ (kv.1 = "group" → kv.2.isInt64 = true)

instance (kv : String × AttributeValue) : Decidable (wellTypedAttr kv) := by
  unfold wellTypedAttr; infer_instance

/-! ## Shape-level tensor model (`unsqueeze`)

`Tensor<B, D>` keeps rank `D` in its type; the operations the claims need
at shape level are embedded over a record holding the shape list, whose
length is the rank. -/

/-- Shape-level view of a tensor: just its (rank-length) shape. -/
structure RTensor where
  shape : List Nat
  deriving DecidableEq, Repr

/-- The rank of a shape-level tensor. -/
def RTensor.rank (t : RTensor) : Nat := t.shape.length

/-- Modelled from the spec for the backend-delegated `reshape`: "requires
the new shape's element count to equal the original; violating this is an
error". -/
def RTensor.reshape (t : RTensor) (dims : List Nat) : Except String RTensor :=
  if dims.prod = t.shape.prod then .ok ⟨dims⟩
  else .error "reshape: element count mismatch"

/-- `Tensor::unsqueeze::<D2>` from `src/burn-tensor/src/tensor/tensor.rs`:
panic when `D2 < D`; otherwise fill a `[1; D2]` dimension array with the
source dims shifted right by `D2 - D` and reshape to it. -/
def RTensor.unsqueeze (t : RTensor) (D2 : Nat) : Except String RTensor :=
  let D := t.rank
  if D2 < D then
    .error ("Can't unsqueeze smaller tensor, got dim " ++ toString D2
      ++ ", expected > " ++ toString D)
  else
    let num_ones := D2 - D
    let dims := (List.range D).foldl
      (fun dims i => dims.set (i + num_ones) (t.shape.getD i 1))
      (List.replicate D2 1)
    t.reshape dims

/-! ## Value-level tensor model (`one_hot`)

`one_hot` needs element values, not just shapes: a tensor is a shape plus
a valuation of multi-indices.  `zeros`, `ones` and `index_assign` are
backend primitives, modelled from the spec. -/

/-- Value-level view of a tensor: shape plus a valuation of multi-indices
(only indices within the shape are meaningful). -/
structure VTensor where
  shape : List Nat
  data : List Nat → Int

/-- Modelled from the spec: the backend `zeros` constructor. -/
def VTensor.zeros (shape : List Nat) : VTensor := ⟨shape, fun _ => 0⟩

/-- Modelled from the spec: the backend `ones` constructor. -/
def VTensor.ones (shape : List Nat) : VTensor := ⟨shape, fun _ => 1⟩

/-- A multi-index lies inside a list of half-open per-axis ranges. -/
def idxInRanges (ranges : List (Nat × Nat)) (idx : List Nat) : Bool :=
  ranges.length == idx.length
    && (List.zip ranges idx).all fun p => decide (p.1.1 ≤ p.2 ∧ p.2 < p.1.2)

/-- Modelled from the spec: `index_assign` "returns a new tensor equal to
the receiver except within the addressed sub-region, which is overwritten
by `values`" (the sub-region is addressed by one half-open range per
axis, and `values` is read at the range-relative offset). -/
def VTensor.index_assign (t : VTensor) (ranges : List (Nat × Nat))
    (values : VTensor) : VTensor :=
  ⟨t.shape, fun idx =>
    if idxInRanges ranges idx then
      values.data ((List.zip ranges idx).map fun p => p.2 - p.1.1)
    else t.data idx⟩

/-- `Tensor::one_hot` from `src/burn-tensor/src/tensor/tensor.rs`: an
all-singleton shape with `num_classes` in the last slot, a zeros tensor,
full-shape ranges with the last narrowed to `[index, index+1)`, and one
`index_assign` of a `[1; D]` ones tensor.  (The Rust source panics when
`D = 0`; the embedding is only consulted at `D ≥ 1`.) -/
def one_hot (D index num_classes : Nat) : VTensor :=
  let dims := (List.replicate D 1).set (D - 1) num_classes
  let tensor := VTensor.zeros dims
  let ranges := dims.map fun dim => (0, dim)
  let ranges := ranges.set (D - 1) (index, index + 1)
  tensor.index_assign ranges (VTensor.ones (List.replicate D 1))

/-! ## Rank-indexed tensor wrapper (reductions)

The reduction claims are about the rank each signature declares, so the
wrapper is embedded exactly as the source has it: a rank-indexed type
delegating to rank-indexed backend primitives. -/

/-- The backend capability contract, restricted to the reduction
primitives the claims need: whole-tensor `mean`/`sum` produce a rank-1
primitive, `mean_dim`/`sum_dim` a primitive of the same rank. -/
structure Backend where
  Prim : Nat → Type
  mean : ∀ D, Prim D → Prim 1
  sum : ∀ D, Prim D → Prim 1
  mean_dim : ∀ D, Prim D → Nat → Prim D
  sum_dim : ∀ D, Prim D → Nat → Prim D

/-- `Tensor<B, D>`: a rank-indexed wrapper around a backend primitive. -/
structure GTensor (B : Backend) (D : Nat) where
  value : B.Prim D

/-- The rank a `Tensor<B, D>` value carries in its type. -/
def GTensor.rank {B : Backend} {D : Nat} (_ : GTensor B D) : Nat := D

/-- `Tensor::mean`: delegates to the backend, returns `Tensor<B, 1>`. -/
def GTensor.mean {B : Backend} {D : Nat} (t : GTensor B D) : GTensor B 1 :=
  ⟨B.mean D t.value⟩

/-- `Tensor::sum`: delegates to the backend, returns `Tensor<B, 1>`. -/
def GTensor.sum {B : Backend} {D : Nat} (t : GTensor B D) : GTensor B 1 :=
  ⟨B.sum D t.value⟩

/-- `Tensor::mean_dim`: delegates to the backend, returns `Tensor<B, D>`. -/
def GTensor.mean_dim {B : Backend} {D : Nat} (t : GTensor B D) (dim : Nat) :
    GTensor B D :=
  ⟨B.mean_dim D t.value dim⟩

/-- `Tensor::sum_dim`: delegates to the backend, returns `Tensor<B, D>`. -/
def GTensor.sum_dim {B : Backend} {D : Nat} (t : GTensor B D) (dim : Nat) :
    GTensor B D :=
  ⟨B.sum_dim D t.value dim⟩

/-! ## Lemmas about the `Except` plumbing -/

theorem except_bind_ok {α β : Type} (a : α) (f : α → Except String β) :
    Except.bind (.ok a) f = f a := rfl

theorem except_bind_err {α β : Type} (e : String) (f : α → Except String β) :
    (Except.bind (.error e) f : Except String β) = .error e := rfl

theorem conv3d_config_def (curr : Node) :
    conv3d_config curr = Except.bind (getWeightShape curr) fun ws =>
      Except.bind (resolveAttrs curr) fun st =>
        buildConfig ws (curr.inputs.length == 3) st := rfl

theorem getWeightShape_def (curr : Node) :
    getWeightShape curr = Except.bind (vecIdx curr.inputs 1) fun arg =>
      match arg.value with
      | some v => .ok v.shape
      | none => .error "Conv3d: weight tensor must be present" := rfl

theorem idx3_def (xs : List Int) :
    idx3 xs = Except.bind (vecIdx xs 0) fun a =>
      Except.bind (vecIdx xs 1) fun b =>
        Except.bind (vecIdx xs 2) fun c => .ok (a, b, c) := rfl

theorem buildConfig_def (weight_shape : List Nat) (bias : Bool)
    (st : AttrState) :
    buildConfig weight_shape bias st =
      (Except.bind (vecIdx weight_shape 1) fun ws1 =>
        Except.bind (vecIdx weight_shape 0) fun channels_out =>
          Except.bind (padding_config_3d st.pads) fun padding =>
            Except.bind (idx3 st.kernel_shape) fun k =>
              Except.bind (idx3 st.strides) fun s =>
                Except.bind (idx3 st.dilations) fun d =>
                  .ok { channels := [ws1 * st.group % 2 ^ 64, channels_out],
                        kernel_size := [usizeOfI64 k.1, usizeOfI64 k.2.1,
                          usizeOfI64 k.2.2],
                        stride := [usizeOfI64 s.1, usizeOfI64 s.2.1,
                          usizeOfI64 s.2.2],
                        dilation := [usizeOfI64 d.1, usizeOfI64 d.2.1,
                          usizeOfI64 d.2.2],
                        groups := st.group, bias := bias,
                        padding := padding }) := rfl

theorem vecIdx_ok_iff {α : Type} (xs : List α) (i : Nat) (v : α) :
    vecIdx xs i = .ok v ↔ xs[i]? = some v := by
  unfold vecIdx
  cases h : xs[i]? <;> simp

theorem vecIdx_of_getElem {α : Type} {xs : List α} {i : Nat} {v : α}
    (h : xs[i]? = some v) : vecIdx xs i = .ok v := by
  rw [vecIdx_ok_iff]; exact h

theorem idx3_ok_iff (xs : List Int) (a b c : Int) :
    idx3 xs = .ok (a, b, c) ↔
      xs[0]? = some a ∧ xs[1]? = some b ∧ xs[2]? = some c := by
  rw [idx3_def]
  constructor
  · intro h
    cases h0 : vecIdx xs 0 with
    | error e => rw [h0, except_bind_err] at h; exact absurd h (by simp)
    | ok a0 =>
      rw [h0, except_bind_ok] at h
      cases h1 : vecIdx xs 1 with
      | error e => rw [h1, except_bind_err] at h; exact absurd h (by simp)
      | ok b0 =>
        rw [h1, except_bind_ok] at h
        cases h2 : vecIdx xs 2 with
        | error e => rw [h2, except_bind_err] at h; exact absurd h (by simp)
        | ok c0 =>
          rw [h2, except_bind_ok] at h
          have heq : a0 = a ∧ b0 = b ∧ c0 = c := by
            have := h; simp at this; exact ⟨this.1, this.2.1, this.2.2⟩
          exact ⟨(vecIdx_ok_iff xs 0 a).1 (heq.1 ▸ h0),
            (vecIdx_ok_iff xs 1 b).1 (heq.2.1 ▸ h1),
            (vecIdx_ok_iff xs 2 c).1 (heq.2.2 ▸ h2)⟩
  · rintro ⟨h0, h1, h2⟩
    rw [vecIdx_of_getElem h0, except_bind_ok, vecIdx_of_getElem h1,
      except_bind_ok, vecIdx_of_getElem h2, except_bind_ok]

/-- Full inversion of a successful `buildConfig`: every intermediate lookup
succeeded and the returned config is the literal assembly of the pieces. -/
theorem buildConfig_ok_elim {ws : List Nat} {bias : Bool} {st : AttrState}
    {cfg : Conv3dConfig} (h : buildConfig ws bias st = .ok cfg) :
    ∃ ws1 ws0 p k0 k1 k2 s0 s1 s2 d0 d1 d2,
      ws[1]? = some ws1 ∧ ws[0]? = some ws0 ∧
      padding_config_3d st.pads = .ok p ∧
      st.kernel_shape[0]? = some k0 ∧ st.kernel_shape[1]? = some k1 ∧
      st.kernel_shape[2]? = some k2 ∧
      st.strides[0]? = some s0 ∧ st.strides[1]? = some s1 ∧
      st.strides[2]? = some s2 ∧
      st.dilations[0]? = some d0 ∧ st.dilations[1]? = some d1 ∧
      st.dilations[2]? = some d2 ∧
      cfg = { channels := [ws1 * st.group % 2 ^ 64, ws0],
              kernel_size := [usizeOfI64 k0, usizeOfI64 k1, usizeOfI64 k2],
              stride := [usizeOfI64 s0, usizeOfI64 s1, usizeOfI64 s2],
              dilation := [usizeOfI64 d0, usizeOfI64 d1, usizeOfI64 d2],
              groups := st.group, bias := bias, padding := p } := by
  rw [buildConfig_def] at h
  cases hw1 : vecIdx ws 1 with
  | error e => rw [hw1, except_bind_err] at h; exact absurd h (by simp)
  | ok ws1 =>
    rw [hw1, except_bind_ok] at h
    cases hw0 : vecIdx ws 0 with
    | error e => rw [hw0, except_bind_err] at h; exact absurd h (by simp)
    | ok ws0 =>
      rw [hw0, except_bind_ok] at h
      cases hp : padding_config_3d st.pads with
      | error e => rw [hp, except_bind_err] at h; exact absurd h (by simp)
      | ok p =>
        rw [hp, except_bind_ok] at h
        cases hk : idx3 st.kernel_shape with
        | error e => rw [hk, except_bind_err] at h; exact absurd h (by simp)
        | ok k =>
          rw [hk, except_bind_ok] at h
          cases hs : idx3 st.strides with
          | error e => rw [hs, except_bind_err] at h; exact absurd h (by simp)
          | ok s =>
            rw [hs, except_bind_ok] at h
            cases hd : idx3 st.dilations with
            | error e =>
              rw [hd, except_bind_err] at h; exact absurd h (by simp)
            | ok d =>
              rw [hd, except_bind_ok] at h
              have hk3 := (idx3_ok_iff _ k.1 k.2.1 k.2.2).1 hk
              have hs3 := (idx3_ok_iff _ s.1 s.2.1 s.2.2).1 hs
              have hd3 := (idx3_ok_iff _ d.1 d.2.1 d.2.2).1 hd
              refine ⟨ws1, ws0, p, k.1, k.2.1, k.2.2, s.1, s.2.1, s.2.2,
                d.1, d.2.1, d.2.2, (vecIdx_ok_iff _ _ _).1 hw1,
                (vecIdx_ok_iff _ _ _).1 hw0, rfl, hk3.1, hk3.2.1, hk3.2.2,
                hs3.1, hs3.2.1, hs3.2.2, hd3.1, hd3.2.1, hd3.2.2, ?_⟩
              have := h
              simp only [Except.ok.injEq] at this
              exact this.symm

/-- Inversion of a successful `conv3d_config`: the weight shape was read,
the attribute loop succeeded, and the config is the assembly of both. -/
theorem conv3d_config_ok_elim {curr : Node} {cfg : Conv3dConfig}
    (h : conv3d_config curr = .ok cfg) :
    ∃ ws st, getWeightShape curr = .ok ws ∧ resolveAttrs curr = .ok st ∧
      buildConfig ws (curr.inputs.length == 3) st = .ok cfg := by
  rw [conv3d_config_def] at h
  cases hw : getWeightShape curr with
  | error e => rw [hw, except_bind_err] at h; exact absurd h (by simp)
  | ok ws =>
    rw [hw, except_bind_ok] at h
    cases hr : resolveAttrs curr with
    | error e => rw [hr, except_bind_err] at h; exact absurd h (by simp)
    | ok st =>
      rw [hr, except_bind_ok] at h
      exact ⟨ws, st, rfl, rfl, h⟩

/-! ## Lemmas about the attribute loop -/

/-- A successful loop iteration only ever happens on a known key. -/
theorem processAttr_ok_known {s s' : AttrState}
    {kv : String × AttributeValue} (h : processAttr s kv = .ok s') :
    kv.1 ∈ knownConv3dAttrs := by
  unfold processAttr at h
  split at h
  · simp [knownConv3dAttrs, *]
  · split at h
    · simp [knownConv3dAttrs, *]
    · split at h
      · simp [knownConv3dAttrs, *]
      · split at h
        · simp [knownConv3dAttrs, *]
        · split at h
          · simp [knownConv3dAttrs, *]
          · exact absurd h (by simp)

/-- An unknown key makes the loop iteration fail with the message that
names the key and the operator. -/
theorem processAttr_unknown {s : AttrState} {kv : String × AttributeValue}
    (h : kv.1 ∉ knownConv3dAttrs) :
    processAttr s kv = .error ("Unexpected attribute for Conv3d: " ++ kv.1) := by
  have h1 : ¬kv.1 = "kernel_shape" := fun e => h (by simp [knownConv3dAttrs, e])
  have h2 : ¬kv.1 = "strides" := fun e => h (by simp [knownConv3dAttrs, e])
  have h3 : ¬kv.1 = "pads" := fun e => h (by simp [knownConv3dAttrs, e])
  have h4 : ¬kv.1 = "dilations" := fun e => h (by simp [knownConv3dAttrs, e])
  have h5 : ¬kv.1 = "group" := fun e => h (by simp [knownConv3dAttrs, e])
  unfold processAttr
  rw [if_neg h1, if_neg h2, if_neg h3, if_neg h4, if_neg h5]

/-- A known, well-typed attribute always makes the loop iteration
succeed. -/
theorem processAttr_known_ok (s : AttrState)
    {kv : String × AttributeValue} (hk : kv.1 ∈ knownConv3dAttrs)
    (hw : wellTypedAttr kv) : ∃ s', processAttr s kv = .ok s' := by
  obtain ⟨k, v⟩ := kv
  simp only [knownConv3dAttrs] at hk
  obtain ⟨hw1, hw2⟩ := hw
  unfold processAttr
  fin_cases hk
  · obtain ⟨vs, rfl⟩ : ∃ vs, v = .int64s vs := by
      have := hw1 (by simp); cases v <;> simp_all [AttributeValue.isInt64s]
    exact ⟨_, rfl⟩
  · obtain ⟨vs, rfl⟩ : ∃ vs, v = .int64s vs := by
      have := hw1 (by simp); cases v <;> simp_all [AttributeValue.isInt64s]
    exact ⟨_, rfl⟩
  · obtain ⟨vs, rfl⟩ : ∃ vs, v = .int64s vs := by
      have := hw1 (by simp); cases v <;> simp_all [AttributeValue.isInt64s]
    exact ⟨_, rfl⟩
  · obtain ⟨vs, rfl⟩ : ∃ vs, v = .int64s vs := by
      have := hw1 (by simp); cases v <;> simp_all [AttributeValue.isInt64s]
    exact ⟨_, rfl⟩
  · obtain ⟨w, rfl⟩ : ∃ w, v = .int64 w := by
      have := hw2 (by simp); cases v <;> simp_all [AttributeValue.isInt64]
    exact ⟨_, rfl⟩

/-- A loop iteration only overwrites the local its key is for; every other
local is preserved. -/
theorem processAttr_preserve {s s' : AttrState}
    {kv : String × AttributeValue} (h : processAttr s kv = .ok s') :
    (kv.1 ≠ "kernel_shape" → s'.kernel_shape = s.kernel_shape)
    ∧ (kv.1 ≠ "strides" → s'.strides = s.strides)
    ∧ (kv.1 ≠ "pads" → s'.pads = s.pads)
    ∧ (kv.1 ≠ "dilations" → s'.dilations = s.dilations)
    ∧ (kv.1 ≠ "group" → s'.group = s.group) := by
  unfold processAttr at h
  split at h
  next hc =>
    cases hv : kv.2.into_i64s with
    | error e => rw [hv] at h; exact absurd h (by simp [Except.map])
    | ok vs =>
      rw [hv] at h
      simp only [Except.map, Except.ok.injEq] at h
      subst h
      exact ⟨fun hne => absurd hc hne, fun _ => rfl, fun _ => rfl,
        fun _ => rfl, fun _ => rfl⟩
  next =>
  split at h
  next hc =>
    cases hv : kv.2.into_i64s with
    | error e => rw [hv] at h; exact absurd h (by simp [Except.map])
    | ok vs =>
      rw [hv] at h
      simp only [Except.map, Except.ok.injEq] at h
      subst h
      exact ⟨fun _ => rfl, fun hne => absurd hc hne, fun _ => rfl,
        fun _ => rfl, fun _ => rfl⟩
  next =>
  split at h
  next hc =>
    cases hv : kv.2.into_i64s with
    | error e => rw [hv] at h; exact absurd h (by simp [Except.map])
    | ok vs =>
      rw [hv] at h
      simp only [Except.map, Except.ok.injEq] at h
      subst h
      exact ⟨fun _ => rfl, fun _ => rfl, fun hne => absurd hc hne,
        fun _ => rfl, fun _ => rfl⟩
  next =>
  split at h
  next hc =>
    cases hv : kv.2.into_i64s with
    | error e => rw [hv] at h; exact absurd h (by simp [Except.map])
    | ok vs =>
      rw [hv] at h
      simp only [Except.map, Except.ok.injEq] at h
      subst h
      exact ⟨fun _ => rfl, fun _ => rfl, fun _ => rfl,
        fun hne => absurd hc hne, fun _ => rfl⟩
  next =>
  split at h
  next hc =>
    cases hv : kv.2.into_i64 with
    | error e => rw [hv] at h; exact absurd h (by simp [Except.map])
    | ok w =>
      rw [hv] at h
      simp only [Except.map, Except.ok.injEq] at h
      subst h
      exact ⟨fun _ => rfl, fun _ => rfl, fun _ => rfl, fun _ => rfl,
        fun hne => absurd hc hne⟩
  next => exact absurd h (by simp)

theorem foldlM_attr_nil (s : AttrState) :
    List.foldlM processAttr s [] = .ok s := rfl

theorem foldlM_attr_cons (s : AttrState) (kv : String × AttributeValue)
    (rest : List (String × AttributeValue)) :
    List.foldlM processAttr s (kv :: rest) =
      Except.bind (processAttr s kv) fun s' =>
        List.foldlM processAttr s' rest := rfl

/-- If any attribute key is unknown, the whole loop fails, whatever the
other attributes are. -/
theorem fold_err_of_unknown (attrs : List (String × AttributeValue)) :
    ∀ s : AttrState, (∃ kv ∈ attrs, kv.1 ∉ knownConv3dAttrs) →
      ∃ e, List.foldlM processAttr s attrs = .error e := by
  induction attrs with
  | nil => intro s h; simp at h
  | cons kv rest ih =>
    intro s h
    cases hp : processAttr s kv with
    | error e =>
      exact ⟨e, by rw [foldlM_attr_cons, hp, except_bind_err]⟩
    | ok s' =>
      obtain ⟨kv0, hmem, hunk⟩ := h
      rcases List.mem_cons.1 hmem with rfl | hmem'
      · exact absurd (processAttr_ok_known hp) hunk
      · obtain ⟨e, he⟩ := ih s' ⟨kv0, hmem', hunk⟩
        exact ⟨e, by rw [foldlM_attr_cons, hp, except_bind_ok]; exact he⟩

/-- If the known attributes are well typed and some key is unknown, the
loop fails with the message naming an unknown key occurring in the
list. -/
theorem fold_msg_of_unknown (attrs : List (String × AttributeValue)) :
    ∀ s : AttrState,
      (∀ kv ∈ attrs, kv.1 ∈ knownConv3dAttrs → wellTypedAttr kv) →
      (∃ kv ∈ attrs, kv.1 ∉ knownConv3dAttrs) →
      ∃ k, (∃ v, (k, v) ∈ attrs) ∧ k ∉ knownConv3dAttrs ∧
        List.foldlM processAttr s attrs =
          .error ("Unexpected attribute for Conv3d: " ++ k) := by
  induction attrs with
  | nil => intro s _ h; simp at h
  | cons kv rest ih =>
    intro s hwt hex
    by_cases hk : kv.1 ∈ knownConv3dAttrs
    · obtain ⟨s', hp⟩ := processAttr_known_ok s hk (hwt kv (by simp) hk)
      have hex' : ∃ kv0 ∈ rest, kv0.1 ∉ knownConv3dAttrs := by
        obtain ⟨kv0, hmem, hunk⟩ := hex
        rcases List.mem_cons.1 hmem with rfl | hmem'
        · exact absurd hk hunk
        · exact ⟨kv0, hmem', hunk⟩
      obtain ⟨k, ⟨v, hv⟩, hunk, he⟩ :=
        ih s' (fun kv0 h0 => hwt kv0 (List.mem_cons_of_mem kv h0)) hex'
      exact ⟨k, ⟨v, List.mem_cons_of_mem kv hv⟩, hunk,
        by rw [foldlM_attr_cons, hp, except_bind_ok]; exact he⟩
    · refine ⟨kv.1, ⟨kv.2, by simp⟩, hk, ?_⟩
      rw [foldlM_attr_cons, processAttr_unknown hk, except_bind_err]

/-- Any local whose key never occurs in the attribute list comes out of a
successful loop unchanged. -/
theorem fold_preserve (attrs : List (String × AttributeValue)) :
    ∀ s st : AttrState, List.foldlM processAttr s attrs = .ok st →
      ("kernel_shape" ∉ attrs.map Prod.fst →
        st.kernel_shape = s.kernel_shape)
      ∧ ("strides" ∉ attrs.map Prod.fst → st.strides = s.strides)
      ∧ ("pads" ∉ attrs.map Prod.fst → st.pads = s.pads)
      ∧ ("dilations" ∉ attrs.map Prod.fst → st.dilations = s.dilations)
      ∧ ("group" ∉ attrs.map Prod.fst → st.group = s.group) := by
  induction attrs with
  | nil =>
    intro s st h
    rw [foldlM_attr_nil] at h
    cases h
    exact ⟨fun _ => rfl, fun _ => rfl, fun _ => rfl, fun _ => rfl,
      fun _ => rfl⟩
  | cons kv rest ih =>
    intro s st h
    rw [foldlM_attr_cons] at h
    cases hp : processAttr s kv with
    | error e => rw [hp, except_bind_err] at h; exact absurd h (by simp)
    | ok s' =>
      rw [hp, except_bind_ok] at h
      have hrest := ih s' st h
      have hone := processAttr_preserve hp
      refine ⟨fun hn => ?_, fun hn => ?_, fun hn => ?_, fun hn => ?_,
        fun hn => ?_⟩ <;>
        simp only [List.map_cons, List.mem_cons, not_or] at hn
      · rw [hrest.1 hn.2, hone.1 (fun e => hn.1 e.symm)]
      · rw [hrest.2.1 hn.2, hone.2.1 (fun e => hn.1 e.symm)]
      · rw [hrest.2.2.1 hn.2, hone.2.2.1 (fun e => hn.1 e.symm)]
      · rw [hrest.2.2.2.1 hn.2, hone.2.2.2.1 (fun e => hn.1 e.symm)]
      · rw [hrest.2.2.2.2 hn.2, hone.2.2.2.2 (fun e => hn.1 e.symm)]

theorem usizeOfI64_one : usizeOfI64 1 = 1 := by decide

instance {ε α : Type} [DecidableEq ε] [DecidableEq α] :
    DecidableEq (Except ε α)
  | .error e, .error f =>
    if h : e = f then .isTrue (by rw [h]) else .isFalse (by simp [h])
  | .error _, .ok _ => .isFalse (by simp)
  | .ok _, .error _ => .isFalse (by simp)
  | .ok a, .ok b =>
    if h : a = b then .isTrue (by rw [h]) else .isFalse (by simp [h])

/-- When the second input carries a materialized value, the weight shape
read is that value's shape. -/
theorem getWeightShape_of_value {curr : Node} {arg : Argument}
    {tv : TensorData} (harg : curr.inputs[1]? = some arg)
    (hv : arg.value = some tv) : getWeightShape curr = .ok tv.shape := by
  rw [getWeightShape_def, vecIdx_of_getElem harg, except_bind_ok, hv]

/-! ## Example nodes (concrete instances used by the witnesses) -/

/-- The data input of the test nodes: no materialized value. -/
def dataArg : Argument := ⟨none⟩

/-- The weight input of the test nodes: materialized shape `[4,2,2,2,2]`. -/
def weightArg : Argument := ⟨some ⟨[4, 2, 2, 2, 2]⟩⟩

/-- A Conv3d node with `group = 2` and the test weight shape. -/
def nodeGroup2 : Node :=
  ⟨[dataArg, weightArg],
   [("kernel_shape", .int64s [2, 2, 2]), ("strides", .int64s [1, 1, 1]),
    ("pads", .int64s [0, 0, 0, 0, 0, 0]), ("dilations", .int64s [1, 1, 1]),
    ("group", .int64 2)]⟩

/-- The config `conv3d_config` extracts from `nodeGroup2`. -/
def cfgGroup2 : Conv3dConfig :=
  { channels := [4, 4], kernel_size := [2, 2, 2], stride := [1, 1, 1],
    dilation := [1, 1, 1], groups := 2, bias := false, padding := .Valid }

/-- A Conv3d node carrying an attribute outside the fixed known set. -/
def nodeUnknown : Node :=
  ⟨[dataArg, weightArg],
   [("kernel_shape", .int64s [2, 2, 2]), ("auto_pad", .int64s [0])]⟩

/-- A Conv3d node with three inputs (data, weight, bias). -/
def nodeBias : Node :=
  ⟨[dataArg, weightArg, dataArg], [("kernel_shape", .int64s [2, 2, 2])]⟩

/-- The config `conv3d_config` extracts from `nodeBias`. -/
def cfgBias : Conv3dConfig :=
  { channels := [2, 4], kernel_size := [2, 2, 2], stride := [1, 1, 1],
    dilation := [1, 1, 1], groups := 1, bias := true, padding := .Valid }

/-- A Conv3d node whose only attribute is `kernel_shape`. -/
def nodeKernelOnly : Node :=
  ⟨[dataArg, weightArg], [("kernel_shape", .int64s [2, 2, 2])]⟩

/-- The config `conv3d_config` extracts from `nodeKernelOnly`. -/
def cfgKernelOnly : Conv3dConfig :=
  { channels := [2, 4], kernel_size := [2, 2, 2], stride := [1, 1, 1],
    dilation := [1, 1, 1], groups := 1, bias := false, padding := .Valid }

/-- A Conv3d node whose weight input carries no materialized value. -/
def nodeNoWeightValue : Node := ⟨[dataArg, ⟨none⟩], []⟩

/-- A Conv3d node with valid attributes but no `kernel_shape` entry. -/
def nodeNoKernelShape : Node :=
  ⟨[dataArg, weightArg], [("strides", .int64s [1, 1, 1])]⟩

/-! ## The claims -/

/-- C1: for every Conv3d node whose weight input has a materialized shape
`[o, c, k1, k2, k3]` and whose group attribute resolves to `g` (the
`groups` field of the extracted config), a successful `conv3d_config`
returns `channels = [c * g, o]` (the bound `c * g < 2^64` keeps the
wrapping `usize` product exact). -/
theorem conv3d_channels_undo_group_division (curr : Node)
    (cfg : Conv3dConfig) (arg : Argument) (tv : TensorData)
    (o c k1 k2 k3 : Nat) (hok : conv3d_config curr = .ok cfg)
    (harg : curr.inputs[1]? = some arg) (hv : arg.value = some tv)
    (hsh : tv.shape = [o, c, k1, k2, k3])
    (hfit : c * cfg.groups < 2 ^ 64) :
    cfg.channels = [c * cfg.groups, o] := by
  obtain ⟨ws, st, hw, hr, hb⟩ := conv3d_config_ok_elim hok
  have hws : ws = [o, c, k1, k2, k3] := by
    have h2 := getWeightShape_of_value harg hv
    rw [hw] at h2
    cases h2
    exact hsh.symm ▸ rfl
  obtain ⟨ws1, ws0, p, k0, kk1, kk2, s0, s1, s2, d0, d1, d2, hw1, hw0, hp,
    _, _, _, _, _, _, _, _, _, hcfg⟩ := buildConfig_ok_elim hb
  rw [hws] at hw1 hw0
  have hws1 : ws1 = c := by simpa using hw1.symm
  have hws0 : ws0 = o := by simpa using hw0.symm
  have hgroups : cfg.groups = st.group := by rw [hcfg]
  rw [hcfg]
  simp only [hws1, hws0, Conv3dConfig.mk.injEq]
  rw [hgroups] at hfit
  simp [Nat.mod_eq_of_lt, hgroups]
  norm_num at hfit
  exact hfit

/-- C1 witness: on the group-2 node with weight shape `[4,2,2,2,2]` the
extracted channels are `[2 * 2, 4] = [4, 4]`. -/
theorem conv3d_channels_undo_group_division_witness :
    cfgGroup2.channels = [2 * cfgGroup2.groups, 4] :=
  conv3d_channels_undo_group_division nodeGroup2 cfgGroup2 weightArg
    ⟨[4, 2, 2, 2, 2]⟩ 4 2 2 2 2 (by decide) (by decide) rfl rfl (by decide)

/-- C2: a node carrying an attribute whose name is outside the fixed known
set never extracts successfully; and whenever the weight value is readable
and the known attributes are well typed, the failure message names an
offending attribute key and the Conv3d operator. -/
theorem conv3d_unknown_attr_fatal (curr : Node)
    (hunk : ∃ kv ∈ curr.attrs, kv.1 ∉ knownConv3dAttrs) :
    (∃ e, conv3d_config curr = .error e)
    ∧ ((∃ ws, getWeightShape curr = .ok ws) →
        (∀ kv ∈ curr.attrs, kv.1 ∈ knownConv3dAttrs → wellTypedAttr kv) →
        ∃ k, (∃ v, (k, v) ∈ curr.attrs) ∧ k ∉ knownConv3dAttrs ∧
          conv3d_config curr =
            .error ("Unexpected attribute for Conv3d: " ++ k)) := by
  constructor
  · cases hw : getWeightShape curr with
    | error e => exact ⟨e, by rw [conv3d_config_def, hw, except_bind_err]⟩
    | ok ws =>
      obtain ⟨e, he⟩ := fold_err_of_unknown curr.attrs defaultAttrState hunk
      refine ⟨e, ?_⟩
      rw [conv3d_config_def, hw, except_bind_ok]
      show Except.bind (resolveAttrs curr) _ = _
      rw [resolveAttrs, he, except_bind_err]
  · rintro ⟨ws, hw⟩ hwt
    obtain ⟨k, hv, hku, he⟩ :=
      fold_msg_of_unknown curr.attrs defaultAttrState hwt hunk
    refine ⟨k, hv, hku, ?_⟩
    rw [conv3d_config_def, hw, except_bind_ok]
    show Except.bind (resolveAttrs curr) _ = _
    rw [resolveAttrs, he, except_bind_err]

/-- C2 witness: the node with the spurious `auto_pad` attribute fails with
the message naming it. -/
theorem conv3d_unknown_attr_fatal_witness :
    conv3d_config nodeUnknown =
      .error "Unexpected attribute for Conv3d: auto_pad" := by
  obtain ⟨k, ⟨v, hv⟩, hku, he⟩ :=
    (conv3d_unknown_attr_fatal nodeUnknown
        ⟨("auto_pad", .int64s [0]), by simp [nodeUnknown], by decide⟩).2
      ⟨[4, 2, 2, 2, 2], by decide⟩ (by decide)
  have hk : k = "auto_pad" := by
    simp only [nodeUnknown, List.mem_cons, List.not_mem_nil, or_false,
      Prod.mk.injEq] at hv
    rcases hv with ⟨hk1, _⟩ | ⟨hk1, _⟩
    · exact absurd (by rw [hk1]; decide) hku
    · exact hk1
  rw [hk] at he
  exact he

/-- C5: the padding-policy derivation on a six-element flat pad list:
all-zero lists give the no-padding policy, symmetric lists with a nonzero
amount give the explicit per-axis policy, and any asymmetric list is
rejected with an error. -/
theorem padding_config_3d_six (b0 b1 b2 e0 e1 e2 : Int) :
    padding_config_3d [b0, b1, b2, e0, e1, e2] =
      if b0 ≠ e0 ∨ b1 ≠ e1 ∨ b2 ≠ e2 then
        .error "Asymmetric padding is not supported"
      else if b0 = 0 ∧ b1 = 0 ∧ b2 = 0 then .ok .Valid
      else .ok (.Explicit b0 b1 b2) := rfl

theorem padding_policy_cases (b0 b1 b2 e0 e1 e2 : Int) :
    (b0 = 0 ∧ b1 = 0 ∧ b2 = 0 ∧ e0 = 0 ∧ e1 = 0 ∧ e2 = 0 →
      padding_config_3d [b0, b1, b2, e0, e1, e2] = .ok .Valid)
    ∧ (b0 = e0 ∧ b1 = e1 ∧ b2 = e2 ∧ ¬(b0 = 0 ∧ b1 = 0 ∧ b2 = 0) →
      padding_config_3d [b0, b1, b2, e0, e1, e2] =
        .ok (.Explicit b0 b1 b2))
    ∧ (b0 ≠ e0 ∨ b1 ≠ e1 ∨ b2 ≠ e2 →
      padding_config_3d [b0, b1, b2, e0, e1, e2] =
        .error "Asymmetric padding is not supported") := by
  refine ⟨fun h => ?_, fun h => ?_, fun h => ?_⟩ <;>
    rw [padding_config_3d_six]
  · obtain ⟨rfl, rfl, rfl, rfl, rfl, rfl⟩ := h
    rfl
  · rw [if_neg (by tauto), if_neg h.2.2.2]
  · rw [if_pos h]

/-- C5 witness: the three cases at concrete pad lists, in particular
`pads = [1,1,1,1,1,1]` gives `Explicit(1,1,1)`. -/
theorem padding_policy_cases_witness :
    padding_config_3d [0, 0, 0, 0, 0, 0] = .ok .Valid
    ∧ padding_config_3d [1, 1, 1, 1, 1, 1] = .ok (.Explicit 1 1 1)
    ∧ padding_config_3d [1, 1, 1, 2, 1, 1] =
        .error "Asymmetric padding is not supported" :=
  ⟨(padding_policy_cases 0 0 0 0 0 0).1 (by decide),
   (padding_policy_cases 1 1 1 1 1 1).2.1 (by decide),
   (padding_policy_cases 1 1 1 2 1 1).2.2 (by decide)⟩

/-- C6: a successfully extracted config has `bias = true` exactly when the
node has three inputs; the flag is structural, from the input count. -/
theorem conv3d_bias_iff_three_inputs (curr : Node) (cfg : Conv3dConfig)
    (hok : conv3d_config curr = .ok cfg) :
    cfg.bias = true ↔ curr.inputs.length = 3 := by
  obtain ⟨ws, st, hw, hr, hb⟩ := conv3d_config_ok_elim hok
  obtain ⟨ws1, ws0, p, k0, k1, k2, s0, s1, s2, d0, d1, d2, _, _, _, _, _,
    _, _, _, _, _, _, _, hcfg⟩ := buildConfig_ok_elim hb
  rw [hcfg]
  simp

/-- C6 witness: the node with a third (bias) input extracts with
`bias = true`. -/
theorem conv3d_bias_iff_three_inputs_witness :
    cfgBias.bias = true ↔ nodeBias.inputs.length = 3 :=
  conv3d_bias_iff_three_inputs nodeBias cfgBias (by decide)

/-- C7: attributes absent from the attribute map keep their documented
defaults in a successfully extracted config: stride `[1,1,1]`, dilation
`[1,1,1]`, the no-padding policy from the default all-zero pads, and
groups `1`. -/
theorem conv3d_absent_attr_defaults (curr : Node) (cfg : Conv3dConfig)
    (hok : conv3d_config curr = .ok cfg) :
    ("strides" ∉ curr.attrs.map Prod.fst → cfg.stride = [1, 1, 1])
    ∧ ("dilations" ∉ curr.attrs.map Prod.fst → cfg.dilation = [1, 1, 1])
    ∧ ("pads" ∉ curr.attrs.map Prod.fst →
        cfg.padding = PaddingConfig3d.Valid)
    ∧ ("group" ∉ curr.attrs.map Prod.fst → cfg.groups = 1) := by
  obtain ⟨ws, st, hw, hr, hb⟩ := conv3d_config_ok_elim hok
  have hpres := fold_preserve curr.attrs defaultAttrState st hr
  obtain ⟨ws1, ws0, p, k0, k1, k2, s0, s1, s2, d0, d1, d2, _, _, hp, _, _,
    _, hs0, hs1, hs2, hd0, hd1, hd2, hcfg⟩ := buildConfig_ok_elim hb
  refine ⟨fun hn => ?_, fun hn => ?_, fun hn => ?_, fun hn => ?_⟩
  · have hst : st.strides = [1, 1, 1] := hpres.2.1 hn
    rw [hst] at hs0 hs1 hs2
    have h0 : s0 = 1 := by simpa using hs0.symm
    have h1 : s1 = 1 := by simpa using hs1.symm
    have h2 : s2 = 1 := by simpa using hs2.symm
    rw [hcfg]
    simp [h0, h1, h2, usizeOfI64_one]
  · have hst : st.dilations = [1, 1, 1] := hpres.2.2.2.1 hn
    rw [hst] at hd0 hd1 hd2
    have h0 : d0 = 1 := by simpa using hd0.symm
    have h1 : d1 = 1 := by simpa using hd1.symm
    have h2 : d2 = 1 := by simpa using hd2.symm
    rw [hcfg]
    simp [h0, h1, h2, usizeOfI64_one]
  · have hst : st.pads = [0, 0, 0, 0, 0, 0] := hpres.2.2.1 hn
    rw [hst] at hp
    have hpv : p = PaddingConfig3d.Valid := by
      have h2 : Except.ok (ε := String) PaddingConfig3d.Valid =
          Except.ok p := hp
      injection h2 with h3
      exact h3.symm
    rw [hcfg, hpv]
  · have hst : st.group = 1 := hpres.2.2.2.2 hn
    rw [hcfg]
    exact hst

/-- C7 witness: the node whose only attribute is `kernel_shape` extracts
with all four defaults. -/
theorem conv3d_absent_attr_defaults_witness :
    cfgKernelOnly.stride = [1, 1, 1] ∧ cfgKernelOnly.dilation = [1, 1, 1]
    ∧ cfgKernelOnly.padding = PaddingConfig3d.Valid
    ∧ cfgKernelOnly.groups = 1 := by
  have h :=
    conv3d_absent_attr_defaults nodeKernelOnly cfgKernelOnly (by decide)
  exact ⟨h.1 (by decide), h.2.1 (by decide), h.2.2.1 (by decide),
    h.2.2.2 (by decide)⟩

/-- C8: a node whose second input carries no materialized value fails with
the fatal weight-presence message; the shape is never defaulted. -/
theorem conv3d_weight_value_required (curr : Node) (arg : Argument)
    (harg : curr.inputs[1]? = some arg) (hv : arg.value = none) :
    conv3d_config curr = .error "Conv3d: weight tensor must be present" := by
  have hw : getWeightShape curr =
      .error "Conv3d: weight tensor must be present" := by
    rw [getWeightShape_def, vecIdx_of_getElem harg, except_bind_ok, hv]
  rw [conv3d_config_def, hw, except_bind_err]

/-- C8 witness: the node whose weight input has no value fails with the
weight-presence message. -/
theorem conv3d_weight_value_required_witness :
    conv3d_config nodeNoWeightValue =
      .error "Conv3d: weight tensor must be present" :=
  conv3d_weight_value_required nodeNoWeightValue ⟨none⟩ (by decide) rfl

/-- C10: with the weight shape present (rank at least 2), every attribute
known and resolvable, a derivable padding, but no `kernel_shape`
attribute, `conv3d_config` hits the empty kernel-shape default and aborts
with the index-out-of-bounds panic at position 0. -/
theorem conv3d_missing_kernel_shape_panics (curr : Node) (arg : Argument)
    (tv : TensorData) (st : AttrState) (p : PaddingConfig3d)
    (harg : curr.inputs[1]? = some arg) (hv : arg.value = some tv)
    (hlen : 2 ≤ tv.shape.length)
    (hres : resolveAttrs curr = .ok st)
    (hks : "kernel_shape" ∉ curr.attrs.map Prod.fst)
    (hpad : padding_config_3d st.pads = .ok p) :
    conv3d_config curr =
      .error "index out of bounds: the len is 0 but the index is 0" := by
  have hw := getWeightShape_of_value harg hv
  have hke : st.kernel_shape = [] :=
    (fold_preserve curr.attrs defaultAttrState st hres).1 hks
  have h1 : tv.shape[1]? = some (tv.shape.get ⟨1, by omega⟩) :=
    List.getElem?_eq_getElem (by omega)
  have h0 : tv.shape[0]? = some (tv.shape.get ⟨0, by omega⟩) :=
    List.getElem?_eq_getElem (by omega)
  rw [conv3d_config_def, hw, except_bind_ok]
  show Except.bind (resolveAttrs curr) _ = _
  rw [hres, except_bind_ok, buildConfig_def, vecIdx_of_getElem h1,
    except_bind_ok, vecIdx_of_getElem h0, except_bind_ok, hpad,
    except_bind_ok, hke]
  rfl

/-- C10 witness: a node with a valid `strides` attribute but no
`kernel_shape` aborts with the index panic. -/
theorem conv3d_missing_kernel_shape_panics_witness :
    conv3d_config nodeNoKernelShape =
      .error "index out of bounds: the len is 0 but the index is 0" :=
  conv3d_missing_kernel_shape_panics nodeNoKernelShape weightArg
    ⟨[4, 2, 2, 2, 2]⟩ defaultAttrState .Valid (by decide) rfl (by decide)
    (by decide) (by decide) (by decide)

/-! ## List lemmas for the tensor layer -/

/-- Setting the position right after a prefix replaces the head of the
suffix. -/
theorem set_append_length {α : Type} (l1 : List α) (x y : α)
    (l2 : List α) : (l1 ++ x :: l2).set l1.length y = l1 ++ y :: l2 := by
  induction l1 with
  | nil => rfl
  | cons a l ih => simp [List.set, ih]

/-- Setting the last slot of a replicate list. -/
theorem set_replicate_last {α : Type} (m : Nat) (a b : α) :
    (List.replicate (m + 1) a).set m b = List.replicate m a ++ [b] := by
  rw [List.replicate_succ' m a]
  have h := set_append_length (List.replicate m a) a b []
  rw [List.length_replicate] at h
  exact h

/-- The dimension-filling loop of `unsqueeze`: after processing every
source axis, the `[1; D2]` buffer holds `D2 - D` leading ones followed by
the source shape. -/
theorem unsqueeze_fill (S : List Nat) (k D2 : Nat)
    (hk : k + S.length ≤ D2) :
    ∀ m, m ≤ S.length →
      (List.range m).foldl
          (fun dims i => dims.set (i + k) (S.getD i 1))
          (List.replicate D2 1)
        = List.replicate k 1 ++ S.take m
            ++ List.replicate (D2 - k - m) 1 := by
  intro m
  induction m with
  | zero =>
    intro _
    simp only [List.range_zero, List.foldl_nil, List.take_zero,
      List.append_nil, Nat.sub_zero]
    rw [← List.replicate_add]
    congr 1
    omega
  | succ n ih =>
    intro hm
    have hn : n ≤ S.length := by omega
    rw [List.range_succ, List.foldl_append, ih hn]
    simp only [List.foldl_cons, List.foldl_nil]
    have hlt : n < S.length := by omega
    have htk : (S.take n).length = n := by
      rw [List.length_take]; omega
    have hrep : List.replicate (D2 - k - n) 1
        = (1 : Nat) :: List.replicate (D2 - k - (n + 1)) 1 := by
      have : D2 - k - n = (D2 - k - (n + 1)) + 1 := by omega
      rw [this, List.replicate_succ]
    rw [hrep]
    have hlen : n + k = (List.replicate k 1 ++ S.take n).length := by
      simp [htk]; omega
    rw [hlen, set_append_length]
    have htake : S.take (n + 1) = S.take n ++ [S.getD n 1] := by
      rw [List.take_succ]
      congr 1
      rw [List.getElem?_eq_getElem hlt]
      simp [List.getD, List.getElem?_eq_getElem hlt]
    rw [htake]
    simp

/-- C3: `unsqueeze::<D2>` on a rank-`D` tensor returns, for `D2 ≥ D`, a
tensor whose shape is `D2 - D` leading ones followed by the source dims in
order; for `D2 < D` it is the fatal precondition panic, never a silent
truncation. -/
theorem unsqueeze_shape_or_panic (t : RTensor) (D2 : Nat) :
    (t.rank ≤ D2 →
      t.unsqueeze D2 =
        .ok ⟨List.replicate (D2 - t.rank) 1 ++ t.shape⟩)
    ∧ (D2 < t.rank →
      t.unsqueeze D2 =
        .error ("Can't unsqueeze smaller tensor, got dim " ++ toString D2
          ++ ", expected > " ++ toString t.rank)) := by
  constructor
  · intro hle
    unfold RTensor.rank at hle
    have hnot : ¬D2 < t.shape.length := by omega
    unfold RTensor.unsqueeze RTensor.rank
    simp only [hnot, if_false, ite_false]
    rw [unsqueeze_fill t.shape (D2 - t.shape.length) D2 (by omega)
      t.shape.length le_rfl]
    rw [List.take_length]
    have h2 : D2 - (D2 - t.shape.length) - t.shape.length = 0 := by omega
    rw [h2]
    simp only [List.replicate_zero, List.append_nil]
    unfold RTensor.reshape
    rw [if_pos (by simp [List.prod_append, List.prod_replicate])]
  · intro hlt
    unfold RTensor.unsqueeze
    rw [if_pos hlt]

/-- C3 witness: a rank-2 tensor of shape `[4, 2]` unsqueezed to rank 4 has
shape `[1, 1, 4, 2]`; unsqueezing it to rank 1 is the panic. -/
theorem unsqueeze_shape_or_panic_witness :
    (RTensor.mk [4, 2]).unsqueeze 4 = .ok ⟨[1, 1, 4, 2]⟩
    ∧ (RTensor.mk [4, 2]).unsqueeze 1 =
        .error "Can't unsqueeze smaller tensor, got dim 1, expected > 2" := by
  constructor
  · have h := (unsqueeze_shape_or_panic ⟨[4, 2]⟩ 4).1 (by decide)
    simpa using h
  · have h := (unsqueeze_shape_or_panic ⟨[4, 2]⟩ 1).2 (by decide)
    simpa using h

/-! ## Lemmas for `one_hot` -/

theorem all_replicate_of {α : Type} {p : α → Bool} {x : α}
    (h : p x = true) (m : Nat) : (List.replicate m x).all p = true := by
  induction m with
  | zero => rfl
  | succ k ih => simp [List.replicate_succ, List.all_cons, h, ih]

theorem zip_replicate_append {α β : Type} (m : Nat) (a x : α) (b y : β) :
    List.zip (List.replicate m a ++ [x]) (List.replicate m b ++ [y])
      = List.replicate m (a, b) ++ [(x, y)] := by
  induction m with
  | zero => rfl
  | succ k ih => simp [List.replicate_succ, List.zip_cons_cons, ih]

/-- The dimension array `one_hot` builds: all ones with `num_classes` in
the last slot. -/
theorem one_hot_dims (m n : Nat) :
    (List.replicate (m + 1) 1).set (m + 1 - 1) n
      = List.replicate m 1 ++ [n] := by
  rw [Nat.add_sub_cancel, set_replicate_last]

/-- The range array `one_hot` builds: full axes except the last narrowed
to `[index, index + 1)`. -/
theorem one_hot_ranges (m i n : Nat) :
    (((List.replicate (m + 1) 1).set (m + 1 - 1) n).map
        (fun dim => ((0 : Nat), dim))).set (m + 1 - 1) (i, i + 1)
      = List.replicate m (0, 1) ++ [(i, i + 1)] := by
  rw [one_hot_dims, List.map_append, List.map_replicate,
    Nat.add_sub_cancel]
  have h := set_append_length (List.replicate m ((0 : Nat), (1 : Nat)))
    ((0 : Nat), n) (i, i + 1) []
  rw [List.length_replicate] at h
  simp only [List.map_cons, List.map_nil]
  exact h

theorem idxInRanges_one_hot (m i j : Nat) :
    idxInRanges (List.replicate m (0, 1) ++ [(i, i + 1)])
        (List.replicate m 0 ++ [j])
      = decide (i ≤ j ∧ j < i + 1) := by
  unfold idxInRanges
  rw [zip_replicate_append, List.all_append]
  have h1 : (List.replicate m (((0 : Nat), (1 : Nat)), (0 : Nat))).all
      (fun p => decide (p.1.1 ≤ p.2 ∧ p.2 < p.1.2)) = true :=
    all_replicate_of (by decide) m
  simp [h1]

theorem one_hot_data_eq (m i n j : Nat) :
    (one_hot (m + 1) i n).data (List.replicate m 0 ++ [j])
      = if i ≤ j ∧ j < i + 1 then (1 : Int) else 0 := by
  unfold one_hot
  simp only [VTensor.index_assign, VTensor.zeros, VTensor.ones,
    one_hot_ranges, idxInRanges_one_hot]
  simp [decide_eq_true_eq]

/-- C4: for rank `D ≥ 1` and `0 ≤ i < n`, `one_hot(i, n)` has shape all
ones except the last dimension of size `n`, and along the last axis it
holds 1 exactly at position `i` and 0 at every other position. -/
theorem one_hot_spec (D i n : Nat) (hD : 1 ≤ D) (hin : i < n) :
    (one_hot D i n).shape = List.replicate (D - 1) 1 ++ [n]
    ∧ ∀ j, j < n →
      (one_hot D i n).data (List.replicate (D - 1) 0 ++ [j])
        = if j = i then (1 : Int) else 0 := by
  obtain ⟨m, rfl⟩ : ∃ m, D = m + 1 := ⟨D - 1, by omega⟩
  constructor
  · show (List.replicate (m + 1) 1).set (m + 1 - 1) n = _
    rw [one_hot_dims, Nat.add_sub_cancel]
  · intro j hj
    rw [Nat.add_sub_cancel, one_hot_data_eq]
    by_cases hji : j = i
    · subst hji
      rw [if_pos ⟨le_rfl, by omega⟩, if_pos rfl]
    · rw [if_neg (by omega), if_neg hji]

/-- C4 witness: `one_hot(1, 3)` at rank 2 has shape `[1, 3]` and value 1
at the narrowed position of the last axis. -/
theorem one_hot_spec_witness :
    (one_hot 2 1 3).shape = List.replicate 1 1 ++ [3]
    ∧ (one_hot 2 1 3).data (List.replicate 1 0 ++ [1])
        = if 1 = 1 then (1 : Int) else 0 :=
  ⟨(one_hot_spec 2 1 3 (by decide) (by decide)).1,
   (one_hot_spec 2 1 3 (by decide) (by decide)).2 1 (by decide)⟩

/-- C9: whole-tensor `mean`/`sum` always collapse to rank 1 whatever the
input rank, while `mean_dim`/`sum_dim` preserve the input rank. -/
theorem reduction_rank_contract (B : Backend) (D : Nat) (t : GTensor B D)
    (dim : Nat) :
    (GTensor.mean t).rank = 1 ∧ (GTensor.sum t).rank = 1
    ∧ (GTensor.mean_dim t dim).rank = t.rank
    ∧ (GTensor.sum_dim t dim).rank = t.rank :=
  ⟨rfl, rfl, rfl, rfl⟩

/-- A degenerate backend instance, enough to instantiate the reduction
contract at a concrete rank. -/
def unitBackend : Backend :=
  ⟨fun _ => Unit, fun _ _ => (), fun _ _ => (), fun _ t _ => t,
   fun _ t _ => t⟩

/-- C9 at a concrete backend and rank: a rank-5 tensor reduces to rank 1
under `mean`/`sum` and keeps rank 5 under `mean_dim`/`sum_dim`. -/
theorem reduction_rank_contract_witness :
    (GTensor.mean (⟨()⟩ : GTensor unitBackend 5)).rank = 1
    ∧ (GTensor.sum (⟨()⟩ : GTensor unitBackend 5)).rank = 1
    ∧ (GTensor.mean_dim (⟨()⟩ : GTensor unitBackend 5) 2).rank
        = (⟨()⟩ : GTensor unitBackend 5).rank
    ∧ (GTensor.sum_dim (⟨()⟩ : GTensor unitBackend 5) 2).rank
        = (⟨()⟩ : GTensor unitBackend 5).rank :=
  reduction_rank_contract unitBackend 5 ⟨()⟩ 2

end Burn
